import Mathlib

/-!
Verification of the LLM fan-out core (`backend/llm_client.py`) of the
llm-council repository: the Provider Invoker `query_model` and the Fan-Out
Coordinator `query_models_parallel`, shallowly embedded in Lean 4.

Modelling conventions:
* The external transport (`litellm.acompletion`) is an oracle passed as a
  function argument.  For the fan-out it is indexed by the task position
  (`Nat`), so that two concurrent calls — even with identical request
  payloads — may observe distinct network outcomes.
* Raised transport exceptions are the `TransportResult.err` constructor,
  carrying the exception kind that the Python code catches
  (`openai.AuthenticationError`, `openai.RateLimitError`,
  `openai.APITimeoutError`, anything else).
* The Python timeout is a float whose only use is being stored verbatim in
  the request; it is modelled as `Rat` (the default `120.0` becomes `120`)
  since no floating-point arithmetic is ever performed on it.
* A Python dict over string keys is modelled as an ordered association list
  with insert-or-overwrite-in-place semantics (`dictInsert`), matching
  CPython insertion-order/overwrite behaviour of a dict comprehension.
* A returned response dict of `query_model` is the structure `QueryResult`:
  the key `content` is always present (with a nullable value, hence
  `Option String`); the keys `reasoning_content` and `thinking_blocks` are
  present iff the corresponding field is `some`.
* The payload of one element of `thinking_blocks` is abstract data that the
  code only passes through; it is modelled as `String`.
* The diagnostic `print` on the failure paths is a side effect with no
  influence on any return value and is not modelled.
-/

/-- One chat message, a `{role, content}` pair. -/
structure Message where
  role : String
  content : String
deriving DecidableEq, Repr

/-- The exception kinds distinguished by the `except` clauses of
`query_model`. -/
inductive TransportError where
  | authenticationError (msg : String)
  | rateLimitError (msg : String)
  | apiTimeoutError (msg : String)
  | otherError (msg : String)
deriving DecidableEq, Repr

/-- The `message` object of one choice of a transport response.
`reasoning_content = some s` models the attribute being present and holding
the string `s`; `none` models the attribute being missing or `None`
(indistinguishable to the code, which probes with `hasattr` and then
truthiness).  Likewise for `thinking_blocks` with a list payload. -/
structure ChoiceMessage where
  content : Option String
  reasoning_content : Option String
  thinking_blocks : Option (List String)
deriving DecidableEq, Repr

/-- One element of `response.choices`. -/
structure Choice where
  message : ChoiceMessage
deriving DecidableEq, Repr

/-- A provider-native response object returned by the transport. -/
structure TransportResponse where
  choices : List Choice
deriving DecidableEq, Repr

/-- Outcome of one transport call: a response object, or a raised
exception. -/
inductive TransportResult where
  | ok (response : TransportResponse)
  | err (e : TransportError)
deriving DecidableEq, Repr

/-- `true` iff the transport call raised. -/
def TransportResult.isErr : TransportResult → Bool
  | .err _ => true
  | .ok _ => false

/-- The kwargs dict handed to `acompletion`: `reasoning_effort = none`
models the key being absent from the dict. -/
structure TransportRequest where
  model : String
  messages : List Message
  timeout : Rat
  reasoning_effort : Option String
deriving DecidableEq, Repr

/-- Python truthiness of an optional string (`None` and `""` are falsy). -/
def pyTruthyStr : Option String → Bool
  | none => false
  | some s => s ≠ ""

/-- Python truthiness of an optional list (`None` and `[]` are falsy). -/
def pyTruthyList : Option (List String) → Bool
  | none => false
  | some l => !l.isEmpty

/-- The kwargs construction of `query_model`: model, messages and timeout
always; the `reasoning_effort` key only when the argument is truthy
(`if reasoning_effort:`). -/
def buildKwargs (model : String) (messages : List Message) (timeout : Rat)
    (reasoning_effort : Option String) : TransportRequest :=
  { model := model
    messages := messages
    timeout := timeout
    reasoning_effort :=
      if pyTruthyStr reasoning_effort then reasoning_effort else none }

/-- The response dict built by `query_model` on success.  The key
`content` is always present with a nullable value; `reasoning_content`
and `thinking_blocks` are present iff `some`. -/
structure QueryResult where
  content : Option String
  reasoning_content : Option String
  thinking_blocks : Option (List String)
deriving DecidableEq, Repr

/-- The result dict assembled from `message = response.choices[0].message`:
the `content` key unconditionally, the two side-channel keys only behind
their truthiness guards. -/
def extractResult (message : ChoiceMessage) : QueryResult :=
  { content := message.content
    reasoning_content :=
      if pyTruthyStr message.reasoning_content then
        message.reasoning_content
      else none
    thinking_blocks :=
      if pyTruthyList message.thinking_blocks then
        message.thinking_blocks
      else none }

/-- The remainder of the try/except of `query_model` after the transport
call settles: a raised exception becomes `none`; on a response object,
`response.choices[0]` is read (an empty `choices` raises an IndexError,
caught by the catch-all clause, hence `none`) and the result dict is
assembled from its message. -/
def handleResponse : TransportResult → Option QueryResult
  | .err _ => none
  | .ok response =>
    match response.choices.head? with
    | none => none
    | some choice => some (extractResult choice.message)

/-- `query_model` of `backend/llm_client.py`: builds the kwargs, calls the
transport, and turns the settled transport outcome into an optional result
dict, converting every raised exception into `none`. -/
def query_model (transport : TransportRequest → TransportResult)
    (model : String) (messages : List Message)
    (timeout : Rat := 120) (reasoning_effort : Option String := none) :
    Option QueryResult :=
  handleResponse
    (transport (buildKwargs model messages timeout reasoning_effort))

/-- Insert-or-overwrite of a CPython dict: an existing key keeps its
position and gets the new value, a new key is appended. -/
def dictInsert (d : List (String × α)) (k : String) (v : α) :
    List (String × α) :=
  if d.any (fun p => p.1 = k) then
    d.map (fun p => if p.1 = k then (k, v) else p)
  else
    d ++ [(k, v)]

/-- The dict built by a comprehension iterating over `ps` in order. -/
def dictOfPairs (ps : List (String × α)) : List (String × α) :=
  ps.foldl (fun d p => dictInsert d p.1 p.2) []

/-- Key lookup in the dict model. -/
def dictLookup (k : String) : List (String × α) → Option α
  | [] => none
  | p :: ps => if p.1 = k then some p.2 else dictLookup k ps

/-- The keys of the dict model, in order. -/
def dictKeys (d : List (String × α)) : List String :=
  d.map Prod.fst

/-- The per-task responses of the fan-out: task number `i` queries the
i-th model with the shared messages, the shared reasoning-effort hint and
the default timeout, exactly as the list comprehension
`[query_model(model, messages, reasoning_effort=reasoning_effort) for
model in models]` builds one task per list position. -/
def taskResponses (transport : Nat → TransportRequest → TransportResult)
    (i : Nat) (models : List String) (messages : List Message)
    (reasoning_effort : Option String) : List (Option QueryResult) :=
  match models with
  | [] => []
  | m :: ms =>
    query_model (transport i) m messages 120 reasoning_effort ::
      taskResponses transport (i + 1) ms messages reasoning_effort

/-- `query_models_parallel` of `backend/llm_client.py`: one task per model,
`asyncio.gather` (which yields the settled results in task order), then the
dict comprehension over `zip(models, responses)`. -/
def query_models_parallel
    (transport : Nat → TransportRequest → TransportResult)
    (models : List String) (messages : List Message)
    (reasoning_effort : Option String := none) :
    List (String × Option QueryResult) :=
  dictOfPairs (models.zip (taskResponses transport 0 models messages
    reasoning_effort))

/-- One settling event: task `i` completes and writes its result into its
own slot.  An out-of-range task number is ignored. -/
def gatherStep (results : List α) (slots : List (Option α)) (i : Nat) :
    List (Option α) :=
  match results[i]? with
  | some v => slots.set i (some v)
  | none => slots

/-- The settling process of `asyncio.gather`: each task writes its result
into its own slot when it completes; `schedule` is the temporal order in
which the tasks complete. -/
def gatherSched (results : List α) (schedule : List Nat) :
    List (Option α) :=
  schedule.foldl (gatherStep results) (List.replicate results.length none)

/-- Collects a list of options, `none` when any element is unsettled. -/
def optionList : List (Option α) → Option (List α)
  | [] => some []
  | none :: _ => none
  | some v :: os =>
    match optionList os with
    | some vs => some (v :: vs)
    | none => none

/-- `query_models_parallel` with the completion order of the tasks made
explicit: the result map is only defined once every task of `schedule` has
settled. -/
def query_models_parallel_sched
    (transport : Nat → TransportRequest → TransportResult)
    (models : List String) (messages : List Message)
    (reasoning_effort : Option String) (schedule : List Nat) :
    Option (List (String × Option QueryResult)) :=
  (optionList (gatherSched
    (taskResponses transport 0 models messages reasoning_effort)
    schedule)).map
    (fun responses => dictOfPairs (models.zip responses))

/-- A schedule under which every one of `n` tasks settles. -/
abbrev completeSchedule (schedule : List Nat) (n : Nat) : Prop :=
  ∀ j, j < n → j ∈ schedule

/-- The position of the last occurrence of `m` in a list, when any. -/
def lastIdxOf (m : String) : List String → Option Nat
  | [] => none
  | x :: xs =>
    match lastIdxOf m xs with
    | some j => some (j + 1)
    | none => if x = m then some 0 else none

/-- The value paired with the last occurrence of key `k` in a pair list,
when any. -/
def lastLookup (k : String) : List (String × α) → Option α
  | [] => none
  | p :: ps =>
    match lastLookup k ps with
    | some v => some v
    | none => if p.1 = k then some p.2 else none

/-! ### Concrete transport oracles used in closed theorems -/

/-- A transport on which every call raises. -/
def tFailAll : Nat → TransportRequest → TransportResult :=
  fun _ _ => .err (.otherError "boom")

/-- Provider A answers "hello", provider B times out, provider C rejects
the credentials. -/
def tC3 : Nat → TransportRequest → TransportResult := fun _ req =>
  match req.model with
  | "A" => .ok ⟨[⟨⟨some "hello", none, none⟩⟩]⟩
  | "B" => .err (.apiTimeoutError "timed out")
  | "C" => .err (.authenticationError "bad key")
  | _ => .err (.otherError "unknown model")

/-- A transport whose response message carries the side-channel attributes
with falsy values: `reasoning_content` holds the empty string and
`thinking_blocks` holds the empty list. -/
def tC4 : TransportRequest → TransportResult :=
  fun _ => .ok ⟨[⟨⟨some "x", some "", some []⟩⟩]⟩

/-- A transport whose response message carries truthy side-channel
attributes. -/
def tC4ok : TransportRequest → TransportResult :=
  fun _ => .ok ⟨[⟨⟨some "x", some "trace", some ["b"]⟩⟩]⟩

/-- A spy transport that reflects the received reasoning-effort value into
the primary content of its response. -/
def reSpy : Nat → TransportRequest → TransportResult :=
  fun _ req => .ok ⟨[⟨⟨req.reasoning_effort, none, none⟩⟩]⟩

/-- A spy transport that reports in its content whether the received
timeout is the 120-second default. -/
def timeoutSpy : Nat → TransportRequest → TransportResult :=
  fun _ req =>
    .ok ⟨[⟨⟨some (if req.timeout = 120 then "default" else "nondefault"),
      none, none⟩⟩]⟩

/-- A transport distinguishing task positions: task 0 answers "first",
every other task answers "second". -/
def tC7 : Nat → TransportRequest → TransportResult := fun i _ =>
  .ok ⟨[⟨⟨some (if i = 0 then "first" else "second"), none, none⟩⟩]⟩

/-- A transport returning a well-formed response whose primary content is
null. -/
def tC9 : TransportRequest → TransportResult :=
  fun _ => .ok ⟨[⟨⟨none, none, none⟩⟩]⟩

/-- `tC3` with the outcome of provider B changed, everything else
untouched. -/
def tC10 : Nat → TransportRequest → TransportResult := fun i req =>
  if req.model = "B" then .ok ⟨[⟨⟨some "changed", none, none⟩⟩]⟩
  else tC3 i req

/-! ### Helper lemmas about the dict model -/

theorem dictLookup_map_replace_self (d : List (String × α)) (k : String)
    (v : α) (h : d.any (fun p => p.1 = k) = true) :
    dictLookup k (d.map (fun p => if p.1 = k then (k, v) else p)) =
      some v := by
  induction d with
  | nil => simp at h
  | cons p ps ih =>
    by_cases hp : p.1 = k
    · simp [dictLookup, hp]
    · simp only [List.any_cons, Bool.or_eq_true, decide_eq_true_eq] at h
      rcases h with h | h
      · exact absurd h hp
      · simp only [List.map_cons, if_neg hp, dictLookup, hp, if_false]
        exact ih h

theorem dictLookup_map_replace_ne (d : List (String × α)) (k k' : String)
    (v : α) (h : k' ≠ k) :
    dictLookup k' (d.map (fun p => if p.1 = k then (k, v) else p)) =
      dictLookup k' d := by
  induction d with
  | nil => simp
  | cons p ps ih =>
    by_cases hp : p.1 = k
    · have h1 : ¬(k = k') := fun he => h he.symm
      have h2 : ¬(p.1 = k') := by rw [hp]; exact h1
      simp only [List.map_cons, if_pos hp, dictLookup, h1, if_false, h2]
      exact ih
    · simp only [List.map_cons, if_neg hp, dictLookup]
      by_cases hq : p.1 = k'
      · simp [hq]
      · simp only [hq, if_false]
        exact ih

theorem dictLookup_append_single_self (d : List (String × α)) (k : String)
    (v : α) (h : d.any (fun p => p.1 = k) = false) :
    dictLookup k (d ++ [(k, v)]) = some v := by
  induction d with
  | nil => simp [dictLookup]
  | cons p ps ih =>
    simp only [List.any_cons, Bool.or_eq_false_iff, decide_eq_false_iff_not]
      at h
    simp only [List.cons_append, dictLookup, h.1, if_false]
    exact ih h.2

theorem dictLookup_append_single_ne (d : List (String × α)) (k k' : String)
    (v : α) (h : k' ≠ k) :
    dictLookup k' (d ++ [(k, v)]) = dictLookup k' d := by
  induction d with
  | nil =>
    have : ¬(k = k') := fun he => h he.symm
    simp [dictLookup, this]
  | cons p ps ih =>
    simp only [List.cons_append, dictLookup]
    by_cases hq : p.1 = k'
    · simp [hq]
    · simp only [hq, if_false]
      exact ih

theorem dictLookup_dictInsert_self (d : List (String × α)) (k : String)
    (v : α) : dictLookup k (dictInsert d k v) = some v := by
  unfold dictInsert
  by_cases h : d.any (fun p => p.1 = k)
  · rw [if_pos h]
    exact dictLookup_map_replace_self d k v h
  · rw [if_neg h]
    exact dictLookup_append_single_self d k v (Bool.eq_false_iff.mpr h)

theorem dictLookup_dictInsert_ne (d : List (String × α)) (k k' : String)
    (v : α) (h : k' ≠ k) :
    dictLookup k' (dictInsert d k v) = dictLookup k' d := by
  unfold dictInsert
  by_cases hm : d.any (fun p => p.1 = k)
  · rw [if_pos hm]
    exact dictLookup_map_replace_ne d k k' v h
  · rw [if_neg hm]
    exact dictLookup_append_single_ne d k k' v h

theorem dictKeys_map_replace (d : List (String × α)) (k : String) (v : α) :
    dictKeys (d.map (fun p => if p.1 = k then (k, v) else p)) =
      dictKeys d := by
  simp only [dictKeys, List.map_map]
  apply List.map_congr_left
  intro p _
  by_cases hp : p.1 = k
  · simp [Function.comp, hp]
  · simp [Function.comp, hp]

theorem dictKeys_dictInsert_mem (d : List (String × α)) (k : String)
    (v : α) (h : k ∈ dictKeys d) :
    dictKeys (dictInsert d k v) = dictKeys d := by
  have hany : d.any (fun p => p.1 = k) = true := by
    simp only [dictKeys, List.mem_map] at h
    rcases h with ⟨p, hp, hk⟩
    simp only [List.any_eq_true, decide_eq_true_eq]
    exact ⟨p, hp, hk⟩
  unfold dictInsert
  rw [if_pos hany]
  exact dictKeys_map_replace d k v

theorem dictKeys_dictInsert_not_mem (d : List (String × α)) (k : String)
    (v : α) (h : k ∉ dictKeys d) :
    dictKeys (dictInsert d k v) = dictKeys d ++ [k] := by
  have hany : d.any (fun p => p.1 = k) = false := by
    simp only [dictKeys, List.mem_map] at h
    push_neg at h
    simp only [List.any_eq_false, decide_eq_true_eq]
    exact fun p hp => h p hp
  unfold dictInsert
  rw [if_neg (by simp [hany])]
  simp [dictKeys]

theorem length_dictInsert_mem (d : List (String × α)) (k : String)
    (v : α) (h : k ∈ dictKeys d) :
    (dictInsert d k v).length = d.length := by
  have h1 := dictKeys_dictInsert_mem d k v h
  have h2 : (dictKeys (dictInsert d k v)).length = (dictKeys d).length := by
    rw [h1]
  simpa [dictKeys] using h2

theorem length_dictInsert_not_mem (d : List (String × α)) (k : String)
    (v : α) (h : k ∉ dictKeys d) :
    (dictInsert d k v).length = d.length + 1 := by
  have h1 := dictKeys_dictInsert_not_mem d k v h
  have h2 : (dictKeys (dictInsert d k v)).length =
      (dictKeys d ++ [k]).length := by rw [h1]
  simpa [dictKeys] using h2

theorem mem_dictInsert (d : List (String × α)) (k : String) (v : α)
    (p : String × α) (h : p ∈ dictInsert d k v) : p = (k, v) ∨ p ∈ d := by
  unfold dictInsert at h
  by_cases hm : d.any (fun p => p.1 = k)
  · rw [if_pos hm] at h
    rcases List.mem_map.mp h with ⟨q, hq, he⟩
    by_cases hqk : q.1 = k
    · left
      rw [← he, if_pos hqk]
    · right
      rw [← he, if_neg hqk]
      exact hq
  · rw [if_neg hm] at h
    rcases List.mem_append.mp h with h | h
    · right; exact h
    · left; simpa using h

theorem mem_dictKeys_dictInsert_self (d : List (String × α)) (k : String)
    (v : α) : k ∈ dictKeys (dictInsert d k v) := by
  by_cases h : k ∈ dictKeys d
  · rw [dictKeys_dictInsert_mem d k v h]
    exact h
  · rw [dictKeys_dictInsert_not_mem d k v h]
    simp

theorem mem_dictKeys_dictInsert_of_mem (d : List (String × α))
    (k k' : String) (v : α) (h : k' ∈ dictKeys d) :
    k' ∈ dictKeys (dictInsert d k v) := by
  by_cases hm : k ∈ dictKeys d
  · rw [dictKeys_dictInsert_mem d k v hm]
    exact h
  · rw [dictKeys_dictInsert_not_mem d k v hm]
    exact List.mem_append_left _ h

theorem mem_dictKeys_foldl :
    ∀ (ps d : List (String × α)) (k : String),
      k ∈ dictKeys d ∨ k ∈ ps.map Prod.fst →
      k ∈ dictKeys (ps.foldl (fun d p => dictInsert d p.1 p.2) d)
  | [], d, k, h => by
    rcases h with h | h
    · exact h
    · simp at h
  | p :: ps, d, k, h => by
    simp only [List.foldl_cons]
    apply mem_dictKeys_foldl ps (dictInsert d p.1 p.2) k
    rcases h with h | h
    · exact Or.inl (mem_dictKeys_dictInsert_of_mem d p.1 k p.2 h)
    · simp only [List.map_cons, List.mem_cons] at h
      rcases h with h | h
      · rw [h]
        exact Or.inl (mem_dictKeys_dictInsert_self d p.1 p.2)
      · exact Or.inr h

theorem mem_dictKeys_dictOfPairs (ps : List (String × α)) (k : String)
    (h : k ∈ ps.map Prod.fst) : k ∈ dictKeys (dictOfPairs ps) :=
  mem_dictKeys_foldl ps [] k (Or.inr h)

theorem length_foldl_nodup :
    ∀ (ps d : List (String × α)),
      (dictKeys d ++ ps.map Prod.fst).Nodup →
      (ps.foldl (fun d p => dictInsert d p.1 p.2) d).length =
        d.length + ps.length
  | [], d, _ => by simp
  | p :: ps, d, h => by
    have hassoc : dictKeys d ++ (p :: ps).map Prod.fst =
        (dictKeys d ++ [p.1]) ++ ps.map Prod.fst := by
      simp
    rw [hassoc] at h
    have hpair := List.nodup_append.mp h
    have hnotmem : p.1 ∉ dictKeys d := by
      have hd := (List.nodup_append.mp hpair.1).2.2
      intro hmem
      exact hd hmem (by simp)
    simp only [List.foldl_cons]
    rw [length_foldl_nodup ps (dictInsert d p.1 p.2)
      (by rwa [dictKeys_dictInsert_not_mem d p.1 p.2 hnotmem])]
    rw [length_dictInsert_not_mem d p.1 p.2 hnotmem]
    simp only [List.length_cons]
    omega

theorem length_dictOfPairs_nodup (ps : List (String × α))
    (h : (ps.map Prod.fst).Nodup) : (dictOfPairs ps).length = ps.length := by
  have := length_foldl_nodup ps [] (by simpa [dictKeys] using h)
  simpa [dictOfPairs] using this

theorem mem_foldl_dictInsert :
    ∀ (ps d : List (String × α)) (p : String × α),
      p ∈ ps.foldl (fun d q => dictInsert d q.1 q.2) d → p ∈ d ∨ p ∈ ps
  | [], d, p, h => by
    simp only [List.foldl_nil] at h
    exact Or.inl h
  | q :: ps, d, p, h => by
    simp only [List.foldl_cons] at h
    rcases mem_foldl_dictInsert ps (dictInsert d q.1 q.2) p h with h | h
    · rcases mem_dictInsert d q.1 q.2 p h with h | h
      · right
        rw [h]
        simp
      · exact Or.inl h
    · right
      exact List.mem_cons_of_mem q h

theorem mem_dictOfPairs (ps : List (String × α)) (p : String × α)
    (h : p ∈ dictOfPairs ps) : p ∈ ps := by
  rcases mem_foldl_dictInsert ps [] p h with h | h
  · simp at h
  · exact h

theorem dictLookup_mem (d : List (String × α)) (k : String)
    (h : k ∈ dictKeys d) :
    ∃ v, dictLookup k d = some v ∧ (k, v) ∈ d := by
  induction d with
  | nil => simp [dictKeys] at h
  | cons p ps ih =>
    by_cases hp : p.1 = k
    · refine ⟨p.2, ?_, ?_⟩
      · simp [dictLookup, hp]
      · rw [← hp]
        simp
    · have h' : k ∈ dictKeys ps := by
        simp only [dictKeys, List.map_cons, List.mem_cons] at h
        rcases h with h | h
        · exact absurd h.symm hp
        · exact h
      rcases ih h' with ⟨v, hv, hm⟩
      exact ⟨v, by simp [dictLookup, hp, hv], List.mem_cons_of_mem p hm⟩

theorem dictLookup_dictOfPairs_const (ps : List (String × α)) (k : String)
    (c : α) (hc : ∀ p ∈ ps, p.2 = c) (hk : k ∈ ps.map Prod.fst) :
    dictLookup k (dictOfPairs ps) = some c := by
  rcases dictLookup_mem (dictOfPairs ps) k
    (mem_dictKeys_dictOfPairs ps k hk) with ⟨v, hv, hm⟩
  have hvc := hc (k, v) (mem_dictOfPairs ps (k, v) hm)
  rw [hv]
  exact congrArg some hvc

theorem dictLookup_foldl_congr (x k : String) (hk : k ≠ x)
    (ps qs : List (String × α))
    (h : List.Forall₂
      (fun p q => p.1 = q.1 ∧ (p.1 ≠ x → p.2 = q.2)) ps qs) :
    ∀ (d e : List (String × α)), dictLookup k d = dictLookup k e →
      dictLookup k (ps.foldl (fun d p => dictInsert d p.1 p.2) d) =
        dictLookup k (qs.foldl (fun d p => dictInsert d p.1 p.2) e) := by
  induction h with
  | nil =>
    intro d e hde
    exact hde
  | @cons a b l₁ l₂ hpq htail ih =>
    intro d e hde
    simp only [List.foldl_cons]
    apply ih
    rcases hpq with ⟨h1, h2⟩
    by_cases hka : k = a.1
    · rw [← h1, hka, dictLookup_dictInsert_self, dictLookup_dictInsert_self,
        h2 (by rw [← hka]; exact hk)]
    · rw [← h1, dictLookup_dictInsert_ne d a.1 k a.2 hka,
        dictLookup_dictInsert_ne e a.1 k b.2 hka]
      exact hde

/-! ### Helper lemmas about the Invoker and the fan-out tasks -/

theorem query_model_of_err (transport : TransportRequest → TransportResult)
    (m : String) (msgs : List Message) (tmo : Rat) (re : Option String)
    (h : (transport (buildKwargs m msgs tmo re)).isErr = true) :
    query_model transport m msgs tmo re = none := by
  unfold query_model
  cases ht : transport (buildKwargs m msgs tmo re) with
  | err e => rfl
  | ok r =>
    rw [ht] at h
    simp [TransportResult.isErr] at h

theorem handleResponse_ok (resp : TransportResponse) (choice : Choice)
    (h : resp.choices.head? = some choice) :
    handleResponse (.ok resp) = some (extractResult choice.message) := by
  show (match resp.choices.head? with
    | none => none
    | some choice => some (extractResult choice.message)) =
    some (extractResult choice.message)
  rw [h]

theorem query_model_congr (t t' : TransportRequest → TransportResult)
    (m : String) (msgs : List Message) (tmo : Rat) (re : Option String)
    (h : ∀ req, req.model = m → t req = t' req) :
    query_model t m msgs tmo re = query_model t' m msgs tmo re := by
  unfold query_model
  rw [h (buildKwargs m msgs tmo re) rfl]

theorem taskResponses_length
    (t : Nat → TransportRequest → TransportResult) (msgs : List Message)
    (re : Option String) :
    ∀ (models : List String) (i : Nat),
      (taskResponses t i models msgs re).length = models.length
  | [], _ => rfl
  | m :: ms, i => by
    simp only [taskResponses, List.length_cons]
    rw [taskResponses_length t msgs re ms (i + 1)]

theorem taskResponses_const
    (t : Nat → TransportRequest → TransportResult) (msgs : List Message)
    (re : Option String) (c : Option QueryResult)
    (hc : ∀ j m, query_model (t j) m msgs 120 re = c) :
    ∀ (models : List String) (i : Nat),
      ∀ r ∈ taskResponses t i models msgs re, r = c
  | [], i, r, hr => by simp [taskResponses] at hr
  | m :: ms, i, r, hr => by
    simp only [taskResponses, List.mem_cons] at hr
    rcases hr with hr | hr
    · rw [hr, hc i m]
    · exact taskResponses_const t msgs re c hc ms (i + 1) r hr

theorem taskResponses_append
    (t : Nat → TransportRequest → TransportResult) (msgs : List Message)
    (re : Option String) (m : String) :
    ∀ (models : List String) (i : Nat),
      taskResponses t i (models ++ [m]) msgs re =
        taskResponses t i models msgs re ++
          [query_model (t (i + models.length)) m msgs 120 re]
  | [], i => by simp [taskResponses]
  | m' :: ms, i => by
    have hrec := taskResponses_append t msgs re m ms (i + 1)
    simp only [List.cons_append, taskResponses, List.append_eq]
    rw [hrec]
    have harith : i + 1 + ms.length = i + (m' :: ms).length := by
      simp only [List.length_cons]
      omega
    rw [harith]

theorem taskResponses_forall2
    (t t' : Nat → TransportRequest → TransportResult) (x : String)
    (msgs : List Message) (re : Option String)
    (h : ∀ i req, req.model ≠ x → t i req = t' i req) :
    ∀ (models : List String) (i : Nat),
      List.Forall₂ (fun p q => p.1 = q.1 ∧ (p.1 ≠ x → p.2 = q.2))
        (models.zip (taskResponses t i models msgs re))
        (models.zip (taskResponses t' i models msgs re))
  | [], i => by
    simp only [taskResponses, List.zip_nil_right]
    exact List.Forall₂.nil
  | m :: ms, i => by
    simp only [taskResponses, List.zip_cons_cons]
    refine List.Forall₂.cons ⟨rfl, fun hm => ?_⟩
      (taskResponses_forall2 t t' x msgs re h ms (i + 1))
    show query_model (t i) m msgs 120 re = query_model (t' i) m msgs 120 re
    exact query_model_congr (t i) (t' i) m msgs 120 re
      (fun req hreq => h i req (by rw [hreq]; exact hm))

/-! ### Helper lemmas about the settling model of the gather -/

theorem gatherStep_length (rs : List α) (slots : List (Option α))
    (i : Nat) : (gatherStep rs slots i).length = slots.length := by
  unfold gatherStep
  cases h : rs[i]? <;> simp

theorem gather_foldl_length (rs : List α) :
    ∀ (sched : List Nat) (slots : List (Option α)),
      (sched.foldl (gatherStep rs) slots).length = slots.length
  | [], slots => rfl
  | i :: sched, slots => by
    simp only [List.foldl_cons]
    rw [gather_foldl_length rs sched (gatherStep rs slots i),
      gatherStep_length rs slots i]

theorem gatherStep_getElem (rs : List α) (slots : List (Option α))
    (i j : Nat) (hlen : slots.length = rs.length) :
    (gatherStep rs slots i)[j]? =
      if i = j ∧ j < rs.length then rs[j]?.map some else slots[j]? := by
  unfold gatherStep
  cases h : rs[i]? with
  | none =>
    have hge : rs.length ≤ i := by
      by_contra hlt
      push_neg at hlt
      rw [List.getElem?_eq_getElem hlt] at h
      exact Option.noConfusion h
    by_cases hij : i = j ∧ j < rs.length
    · omega
    · rw [if_neg hij]
  | some v =>
    have hi : i < rs.length := by
      by_contra hge
      push_neg at hge
      rw [List.getElem?_eq_none hge] at h
      exact Option.noConfusion h
    by_cases hij : i = j
    · subst hij
      rw [if_pos ⟨rfl, hi⟩, List.getElem?_set, if_pos rfl,
        if_pos (show i < slots.length by omega), h]
      rfl
    · rw [if_neg (fun hc => hij hc.1), List.getElem?_set, if_neg hij]

theorem gather_foldl_getElem (rs : List α) :
    ∀ (sched : List Nat) (slots : List (Option α)),
      slots.length = rs.length → ∀ j,
      (sched.foldl (gatherStep rs) slots)[j]? =
        if j ∈ sched ∧ j < rs.length then rs[j]?.map some
        else slots[j]?
  | [], slots, _, j => by simp
  | i :: sched, slots, hlen, j => by
    simp only [List.foldl_cons]
    rw [gather_foldl_getElem rs sched (gatherStep rs slots i)
      (by rw [gatherStep_length rs slots i]; exact hlen) j]
    by_cases hj : j < rs.length
    · by_cases hjs : j ∈ sched
      · rw [if_pos ⟨hjs, hj⟩, if_pos ⟨List.mem_cons_of_mem i hjs, hj⟩]
      · rw [if_neg (fun hc => hjs hc.1),
          gatherStep_getElem rs slots i j hlen]
        by_cases hij : i = j
        · rw [if_pos ⟨hij, hj⟩, if_pos ⟨by rw [hij]; simp, hj⟩]
        · rw [if_neg (fun hc => hij hc.1)]
          rw [if_neg (fun hc => by
            rcases List.mem_cons.mp hc.1 with hc1 | hc1
            · exact hij hc1.symm
            · exact hjs hc1)]
    · rw [if_neg (fun hc => hj hc.2), if_neg (fun hc => hj hc.2),
        gatherStep_getElem rs slots i j hlen,
        if_neg (fun hc => hj hc.2)]

theorem gatherSched_complete (rs : List α) (sched : List Nat)
    (h : ∀ j, j < rs.length → j ∈ sched) :
    gatherSched rs sched = rs.map some := by
  apply List.ext_getElem?
  intro j
  unfold gatherSched
  rw [gather_foldl_getElem rs sched (List.replicate rs.length none)
    (by simp) j]
  by_cases hj : j < rs.length
  · rw [if_pos ⟨h j hj, hj⟩, List.getElem?_map]
  · rw [if_neg (fun hc => hj hc.2)]
    have h1 : rs[j]? = none := List.getElem?_eq_none (by omega)
    rw [List.getElem?_map, h1, List.getElem?_replicate, if_neg (by omega)]
    rfl

theorem optionList_map_some : ∀ (l : List α),
    optionList (l.map some) = some l
  | [] => rfl
  | a :: l => by
    simp only [List.map_cons, optionList, optionList_map_some l]

/-- For every complete schedule, the fan-out with explicit completion order
agrees with the order-independent fan-out: the completion order of the
tasks never influences the returned map. -/
theorem query_models_parallel_sched_complete
    (t : Nat → TransportRequest → TransportResult) (models : List String)
    (msgs : List Message) (re : Option String) (sched : List Nat)
    (h : completeSchedule sched models.length) :
    query_models_parallel_sched t models msgs re sched =
      some (query_models_parallel t models msgs re) := by
  unfold query_models_parallel_sched query_models_parallel
  rw [gatherSched_complete (taskResponses t 0 models msgs re) sched
    (fun j hj => h j (by rwa [taskResponses_length] at hj))]
  rw [optionList_map_some]
  rfl

/-! ### Last-occurrence characterization of the dict comprehension -/

theorem dictLookup_foldl_lastLookup (k : String) :
    ∀ (ps d : List (String × α)),
      dictLookup k (ps.foldl (fun d p => dictInsert d p.1 p.2) d) =
        (lastLookup k ps).or (dictLookup k d)
  | [], d => by simp [lastLookup]
  | p :: ps, d => by
    simp only [List.foldl_cons]
    rw [dictLookup_foldl_lastLookup k ps (dictInsert d p.1 p.2)]
    cases hlast : lastLookup k ps with
    | some v => simp [lastLookup, hlast]
    | none =>
      simp only [lastLookup, hlast, Option.none_or]
      by_cases hp : p.1 = k
      · rw [if_pos hp, ← hp, dictLookup_dictInsert_self]
        rfl
      · rw [if_neg hp, Option.none_or,
          dictLookup_dictInsert_ne d p.1 k p.2 (fun he => hp he.symm)]

theorem dictLookup_dictOfPairs_lastLookup (ps : List (String × α))
    (k : String) :
    dictLookup k (dictOfPairs ps) = lastLookup k ps := by
  unfold dictOfPairs
  rw [dictLookup_foldl_lastLookup]
  cases lastLookup k ps <;> rfl

theorem lastLookup_zip_taskResponses_none
    (t : Nat → TransportRequest → TransportResult) (msgs : List Message)
    (re : Option String) (m : String) :
    ∀ (models : List String) (i : Nat), lastIdxOf m models = none →
      lastLookup m (models.zip (taskResponses t i models msgs re)) = none
  | [], _, _ => rfl
  | x :: xs, i, h => by
    simp only [lastIdxOf] at h
    cases hx : lastIdxOf m xs with
    | some j =>
      rw [hx] at h
      exact Option.noConfusion h
    | none =>
      rw [hx] at h
      by_cases hxm : x = m
      · rw [if_pos hxm] at h
        exact Option.noConfusion h
      · simp only [taskResponses, List.zip_cons_cons, ← List.zip_eq_zipWith,
          lastLookup]
        rw [lastLookup_zip_taskResponses_none t msgs re m xs (i + 1) hx]
        simp [hxm]

theorem lastLookup_zip_taskResponses
    (t : Nat → TransportRequest → TransportResult) (msgs : List Message)
    (re : Option String) (m : String) :
    ∀ (models : List String) (i j : Nat), lastIdxOf m models = some j →
      lastLookup m (models.zip (taskResponses t i models msgs re)) =
        some (query_model (t (i + j)) m msgs 120 re)
  | [], _, _, h => Option.noConfusion h
  | x :: xs, i, j, h => by
    simp only [lastIdxOf] at h
    simp only [taskResponses, List.zip_cons_cons, ← List.zip_eq_zipWith,
          lastLookup]
    cases hx : lastIdxOf m xs with
    | some j' =>
      rw [hx] at h
      have hj : j = j' + 1 := (Option.some_inj.mp h).symm
      rw [lastLookup_zip_taskResponses t msgs re m xs (i + 1) j' hx]
      have harith : i + 1 + j' = i + j := by omega
      rw [harith]
    | none =>
      rw [hx] at h
      by_cases hxm : x = m
      · rw [if_pos hxm] at h
        have hj : j = 0 := (Option.some_inj.mp h).symm
        subst hj
        subst hxm
        rw [lastLookup_zip_taskResponses_none t msgs re x xs (i + 1) hx]
        simp
      · rw [if_neg hxm] at h
        exact Option.noConfusion h

/-- The entry surviving in the fan-out result for a requested identifier is
the response of the task launched from its last occurrence in the input
list. -/
theorem dictLookup_query_models_parallel_lastIdx
    (t : Nat → TransportRequest → TransportResult) (models : List String)
    (msgs : List Message) (re : Option String) (m : String) (j : Nat)
    (hj : lastIdxOf m models = some j) :
    dictLookup m (query_models_parallel t models msgs re) =
      some (query_model (t j) m msgs 120 re) := by
  unfold query_models_parallel
  rw [dictLookup_dictOfPairs_lastLookup,
    lastLookup_zip_taskResponses t msgs re m models 0 j hj, Nat.zero_add]

/-! ### The claims -/

/-- C1 counterexample: with the duplicated provider list ["A", "A"] and an
all-failing transport, the returned map has 1 entry while 2 providers were
requested, so `len(result) == len(models)` fails for lists with duplicate
identifiers. -/
theorem c1_counterexample :
    (query_models_parallel tFailAll ["A", "A"] [] none).length = 1 ∧
    (["A", "A"] : List String).length = 2 := by
  decide

/-- C1 (amended): for every transport — in particular an all-failing one —
and every provider list with pairwise-distinct identifiers, the returned
map has exactly one entry per requested provider, and every requested
provider appears among its keys; failures never shrink the map. -/
theorem c1_result_map_cardinality
    (t : Nat → TransportRequest → TransportResult) (models : List String)
    (msgs : List Message) (re : Option String) (h : models.Nodup) :
    (query_models_parallel t models msgs re).length = models.length ∧
    ∀ m ∈ models, m ∈ dictKeys (query_models_parallel t models msgs re) := by
  have hlen : (taskResponses t 0 models msgs re).length = models.length :=
    taskResponses_length t msgs re models 0
  constructor
  · unfold query_models_parallel
    rw [length_dictOfPairs_nodup _
      (by rw [List.map_fst_zip _ _ (le_of_eq hlen.symm)]; exact h)]
    rw [List.length_zip, hlen]
    exact min_self _
  · intro m hm
    unfold query_models_parallel
    apply mem_dictKeys_dictOfPairs
    rw [List.map_fst_zip _ _ (le_of_eq hlen.symm)]
    exact hm

/-- C1 witness: the amended cardinality claim at a concrete duplicate-free
provider list under an all-failing transport. -/
theorem c1_witness :
    (["A", "B"] : List String).Nodup ∧
    ((query_models_parallel tFailAll ["A", "B"] [] none).length = 2 ∧
      ∀ m ∈ (["A", "B"] : List String),
        m ∈ dictKeys (query_models_parallel tFailAll ["A", "B"] [] none)) :=
  ⟨by decide, c1_result_map_cardinality tFailAll ["A", "B"] [] none
    (by decide)⟩

/-- C2: every raised transport failure — of any kind — is absorbed by
`query_model`, which returns the Absent outcome `none`; consequently, when
every call of the batch raises, `query_models_parallel` still returns a map
whose entry for each requested provider is Absent. -/
theorem c2_failures_absorbed :
    (∀ (t : TransportRequest → TransportResult) (m : String)
        (msgs : List Message) (tmo : Rat) (re : Option String),
        (t (buildKwargs m msgs tmo re)).isErr = true →
        query_model t m msgs tmo re = none) ∧
    (∀ (t : Nat → TransportRequest → TransportResult)
        (models : List String) (msgs : List Message) (re : Option String),
        (∀ i req, (t i req).isErr = true) →
        ∀ m ∈ models,
          dictLookup m (query_models_parallel t models msgs re) =
            some none) := by
  constructor
  · exact query_model_of_err
  · intro t models msgs re ht m hm
    unfold query_models_parallel
    apply dictLookup_dictOfPairs_const
    · intro p hp
      exact taskResponses_const t msgs re none
        (fun j m' => query_model_of_err (t j) m' msgs 120 re
          (ht j (buildKwargs m' msgs 120 re)))
        models 0 p.2 (List.of_mem_zip hp).2
    · rw [List.map_fst_zip _ _
        (le_of_eq (taskResponses_length t msgs re models 0).symm)]
      exact hm

/-- C2 witness: a concrete all-raising transport, absorbed into `none` by
the Invoker, and into a complete all-Absent map by the Coordinator. -/
theorem c2_witness :
    query_model (tFailAll 0) "openai/gpt-5.1" [⟨"user", "hi"⟩] 120 none =
      none ∧
    dictLookup "A" (query_models_parallel tFailAll ["A", "B"] [] none) =
      some none :=
  ⟨c2_failures_absorbed.1 (tFailAll 0) "openai/gpt-5.1" [⟨"user", "hi"⟩]
      120 none (by decide),
    c2_failures_absorbed.2 tFailAll ["A", "B"] [] none
      (fun _ _ => rfl) "A" (by decide)⟩

/-- C3: the three-provider scenario — A answers "hello", B times out, C
fails authentication — returns exactly the map
`{A: Success "hello", B: Absent, C: Absent}`. -/
theorem c3_mixed_scenario :
    query_models_parallel tC3 ["A", "B", "C"] [⟨"user", "hi"⟩] none =
      [("A", some ⟨some "hello", none, none⟩), ("B", none), ("C", none)] := by
  decide

/-- C4 counterexample: the transport `tC4` supplies both side-channel
attributes (an empty reasoning trace and an empty thinking-block list), yet
the Success outcome omits both fields, refuting the claimed
"present iff supplied" equivalence. -/
theorem c4_counterexample :
    (some "" : Option String).isSome = true ∧
    (some ([] : List String)).isSome = true ∧
    query_model tC4 "A" [] 120 none = some ⟨some "x", none, none⟩ := by
  decide

/-- C4 (amended): for every well-formed transport response, a side-channel
field is present in the Success outcome iff the transport supplied it with
a truthy value (a non-empty string, a non-empty list); a supplied empty or
null value is structurally omitted, so no empty placeholder ever appears. -/
theorem c4_side_channels_truthy
    (t : TransportRequest → TransportResult) (m : String)
    (msgs : List Message) (tmo : Rat) (re : Option String)
    (msg : ChoiceMessage) (resp : TransportResponse) (r : QueryResult)
    (hok : t (buildKwargs m msgs tmo re) = .ok resp)
    (hhead : resp.choices.head? = some ⟨msg⟩)
    (hr : query_model t m msgs tmo re = some r) :
    (∀ s, r.reasoning_content = some s ↔
      msg.reasoning_content = some s ∧ s ≠ "") ∧
    (∀ bs, r.thinking_blocks = some bs ↔
      msg.thinking_blocks = some bs ∧ bs ≠ []) := by
  unfold query_model at hr
  rw [hok, handleResponse_ok resp ⟨msg⟩ hhead] at hr
  rw [Option.some_inj] at hr
  subst hr
  show (∀ s, (extractResult msg).reasoning_content = some s ↔
      msg.reasoning_content = some s ∧ s ≠ "") ∧
    (∀ bs, (extractResult msg).thinking_blocks = some bs ↔
      msg.thinking_blocks = some bs ∧ bs ≠ [])
  unfold extractResult
  constructor
  · intro s
    cases hrc : msg.reasoning_content with
    | none => simp [pyTruthyStr, hrc]
    | some s' =>
      by_cases hs' : s' = ""
      · simp [pyTruthyStr, hrc, hs']
        intro he
        rw [he]
      · simp [pyTruthyStr, hrc, hs']
        intro he
        rw [← he]
        exact hs'
  · intro bs
    cases hrb : msg.thinking_blocks with
    | none => simp [pyTruthyList, hrb]
    | some bs' =>
      by_cases hb' : bs' = []
      · simp [pyTruthyList, hrb, hb']
      · simp [pyTruthyList, hrb, hb', List.isEmpty_iff]
        intro he
        rw [← he]
        exact hb'

/-- C4 witness: the amended side-channel characterization at a concrete
response carrying a truthy reasoning trace and one thinking block. -/
theorem c4_witness :
    tC4ok (buildKwargs "A" [] 120 none) =
      .ok ⟨[⟨⟨some "x", some "trace", some ["b"]⟩⟩]⟩ ∧
    query_model tC4ok "A" [] 120 none =
      some ⟨some "x", some "trace", some ["b"]⟩ ∧
    ((∀ s, (⟨some "x", some "trace", some ["b"]⟩ : QueryResult).reasoning_content = some s ↔
        (⟨some "x", some "trace", some ["b"]⟩ : ChoiceMessage).reasoning_content = some s ∧ s ≠ "") ∧
      (∀ bs, (⟨some "x", some "trace", some ["b"]⟩ : QueryResult).thinking_blocks = some bs ↔
        (⟨some "x", some "trace", some ["b"]⟩ : ChoiceMessage).thinking_blocks = some bs ∧ bs ≠ [])) :=
  ⟨rfl, by decide,
    c4_side_channels_truthy tC4ok "A" [] 120 none
      ⟨some "x", some "trace", some ["b"]⟩
      ⟨[⟨⟨some "x", some "trace", some ["b"]⟩⟩]⟩
      ⟨some "x", some "trace", some ["b"]⟩ rfl rfl (by decide)⟩

/-- C5 counterexample: the hint `some ""` is provided but, being falsy in
Python, is not forwarded: the built kwargs carry no reasoning-effort key
and the spy transport observes none, refuting "forwarded verbatim whenever
provided". -/
theorem c5_counterexample :
    (some "" : Option String) ≠ none ∧
    (buildKwargs "A" [] 120 (some "")).reasoning_effort = none ∧
    query_models_parallel reSpy ["A"] [] (some "") =
      [("A", some ⟨none, none, none⟩)] := by
  decide

/-- C5 (amended): a non-empty reasoning-effort hint — which covers all four
documented levels — is forwarded verbatim to the transport call of every
provider of the batch, while an omitted (or empty, hence falsy) hint puts
no reasoning-effort key into any transport call. -/
theorem c5_reasoning_effort_forwarding
    (models : List String) (msgs : List Message) (m : String) (tmo : Rat)
    (s : String) (hs : s ≠ "") :
    (buildKwargs m msgs tmo (some s)).reasoning_effort = some s ∧
    (buildKwargs m msgs tmo none).reasoning_effort = none ∧
    (∀ p ∈ query_models_parallel reSpy models msgs (some s),
      p.2 = some ⟨some s, none, none⟩) ∧
    (∀ p ∈ query_models_parallel reSpy models msgs none,
      p.2 = some ⟨none, none, none⟩) := by
  refine ⟨by simp [buildKwargs, pyTruthyStr, hs], rfl, ?_, ?_⟩
  · intro p hp
    exact taskResponses_const reSpy msgs (some s)
      (some ⟨some s, none, none⟩)
      (fun j m' => by
        simp [query_model, handleResponse, extractResult, reSpy, buildKwargs, pyTruthyStr, hs])
      models 0 p.2
      (List.of_mem_zip (mem_dictOfPairs _ p hp)).2
  · intro p hp
    exact taskResponses_const reSpy msgs none
      (some ⟨none, none, none⟩)
      (fun j m' => by simp [query_model, handleResponse, extractResult, reSpy, buildKwargs, pyTruthyStr])
      models 0 p.2
      (List.of_mem_zip (mem_dictOfPairs _ p hp)).2

/-- C5 witness: the amended forwarding claim at the concrete hint
"high". -/
theorem c5_witness :
    ("high" : String) ≠ "" ∧
    (buildKwargs "A" [] 120 (some "high")).reasoning_effort =
      some "high" :=
  ⟨by decide,
    (c5_reasoning_effort_forwarding ["A"] [] "A" 120 "high" (by decide)).1⟩

/-- C6: a call of `query_model` that leaves the timeout unspecified uses
the 120-second default, and every per-provider transport call issued by
`query_models_parallel` carries that default, as observed by a spy
transport that reports whether the received timeout equals 120. -/
theorem c6_default_timeout :
    (∀ (t : TransportRequest → TransportResult) (m : String)
        (msgs : List Message),
      query_model t m msgs = query_model t m msgs 120 none) ∧
    (∀ (models : List String) (msgs : List Message) (re : Option String),
      ∀ p ∈ query_models_parallel timeoutSpy models msgs re,
        p.2 = some ⟨some "default", none, none⟩) := by
  constructor
  · intro t m msgs
    rfl
  · intro models msgs re p hp
    exact taskResponses_const timeoutSpy msgs re
      (some ⟨some "default", none, none⟩)
      (fun j m' => by simp [query_model, handleResponse, extractResult, timeoutSpy, buildKwargs])
      models 0 p.2
      (List.of_mem_zip (mem_dictOfPairs _ p hp)).2

/-- C6 witness: the default-timeout observation at a concrete one-provider
batch. -/
theorem c6_witness :
    ("A", (some ⟨some "default", none, none⟩ : Option QueryResult)) ∈
      query_models_parallel timeoutSpy ["A"] [] none ∧
    ((("A", (some ⟨some "default", none, none⟩ : Option QueryResult))).2 =
      some ⟨some "default", none, none⟩) :=
  ⟨by decide,
    c6_default_timeout.2 ["A"] [] none
      ("A", some ⟨some "default", none, none⟩) (by decide)⟩

/-- C7 counterexample: for providers ["A", "A"], task 0 answers "first"
and task 1 answers "second"; under the completion schedule [1, 0] the task
that settles last is task 0, yet the surviving entry holds "second" — the
occurrence listed last wins, not the one settled last. -/
theorem c7_counterexample :
    query_models_parallel_sched tC7 ["A", "A"] [] none [1, 0] =
      some [("A", some ⟨some "second", none, none⟩)] ∧
    query_model (tC7 0) "A" [] 120 none =
      some ⟨some "first", none, none⟩ ∧
    (some (⟨some "first", none, none⟩ : QueryResult) : Option QueryResult) ≠
      some ⟨some "second", none, none⟩ := by
  decide

/-- C7 (amended): for every provider list and every identifier occurring
in it — duplicated anywhere, not only in the final batch position — the
surviving entry of that identifier is the response of the occurrence
listed last in the input sequence (position `lastIdxOf`), under every
complete completion schedule: the settling order never matters, only the
listing order does. -/
theorem c7_last_listed_wins
    (t : Nat → TransportRequest → TransportResult) (models : List String)
    (msgs : List Message) (re : Option String) (sched : List Nat)
    (m : String) (j : Nat) (hs : completeSchedule sched models.length)
    (hj : lastIdxOf m models = some j) :
    (query_models_parallel_sched t models msgs re sched).bind
      (fun d => dictLookup m d) =
      some (query_model (t j) m msgs 120 re) := by
  rw [query_models_parallel_sched_complete t models msgs re sched hs,
    Option.some_bind]
  exact dictLookup_query_models_parallel_lastIdx t models msgs re m j hj

/-- C7 witness: the amended last-listed-wins claim at ["A", "A", "B"],
where the duplicated identifier is followed by another provider, under the
settle order [1, 2, 0] in which the first occurrence settles last: the
surviving entry for A is the one of its last-listed occurrence, task 1. -/
theorem c7_witness :
    completeSchedule [1, 2, 0] (["A", "A", "B"] : List String).length ∧
    lastIdxOf "A" ["A", "A", "B"] = some 1 ∧
    (query_models_parallel_sched tC7 ["A", "A", "B"] [] none
      [1, 2, 0]).bind (fun d => dictLookup "A" d) =
      some (query_model (tC7 1) "A" [] 120 none) :=
  ⟨by decide, by decide,
    c7_last_listed_wins tC7 ["A", "A", "B"] [] none [1, 2, 0] "A" 1
      (by decide) (by decide)⟩

/-- C8: the empty provider list yields the empty map, for every transport,
message payload and hint. -/
theorem c8_empty_models
    (t : Nat → TransportRequest → TransportResult) (msgs : List Message)
    (re : Option String) :
    query_models_parallel t [] msgs re = [] := rfl

/-- C9: on any well-formed transport response, `query_model` returns a
Success outcome whose `content` field carries the primary content of the
response message — in particular a null primary content still yields a
Success outcome (with null content), never the Absent outcome. -/
theorem c9_success_content
    (t : TransportRequest → TransportResult) (m : String)
    (msgs : List Message) (tmo : Rat) (re : Option String)
    (msg : ChoiceMessage) (resp : TransportResponse)
    (hok : t (buildKwargs m msgs tmo re) = .ok resp)
    (hhead : resp.choices.head? = some ⟨msg⟩) :
    ∃ r, query_model t m msgs tmo re = some r ∧ r.content = msg.content := by
  refine ⟨extractResult msg, ?_, rfl⟩
  unfold query_model
  rw [hok]
  exact handleResponse_ok resp ⟨msg⟩ hhead

/-- C9 witness: a well-formed response with null primary content still
yields a Success outcome with null content. -/
theorem c9_witness :
    tC9 (buildKwargs "A" [] 120 none) = .ok ⟨[⟨⟨none, none, none⟩⟩]⟩ ∧
    ∃ r, query_model tC9 "A" [] 120 none = some r ∧
      r.content = (⟨none, none, none⟩ : ChoiceMessage).content :=
  ⟨rfl,
    c9_success_content tC9 "A" [] 120 none ⟨none, none, none⟩
      ⟨[⟨⟨none, none, none⟩⟩]⟩ rfl rfl⟩

/-- C10: per-provider noninterference — if two transports agree on every
request that does not address provider `x`, the fan-out results over the
same provider list agree on the entry of every provider other than `x`. -/
theorem c10_noninterference
    (t t' : Nat → TransportRequest → TransportResult)
    (models : List String) (msgs : List Message) (re : Option String)
    (x : String) (h : ∀ i req, req.model ≠ x → t i req = t' i req) :
    ∀ k, k ≠ x →
      dictLookup k (query_models_parallel t models msgs re) =
        dictLookup k (query_models_parallel t' models msgs re) := by
  intro k hk
  unfold query_models_parallel dictOfPairs
  exact dictLookup_foldl_congr x k hk _ _
    (taskResponses_forall2 t t' x msgs re h models 0) [] [] rfl

/-- C10 witness: changing only the outcome of provider B leaves the entry
of provider A untouched. -/
theorem c10_witness :
    ("A" : String) ≠ "B" ∧
    dictLookup "A" (query_models_parallel tC3 ["A", "B"] [] none) =
      dictLookup "A" (query_models_parallel tC10 ["A", "B"] [] none) :=
  ⟨by decide,
    c10_noninterference tC3 tC10 ["A", "B"] [] none "B"
      (fun i req hreq => by unfold tC10; rw [if_neg hreq]) "A" (by decide)⟩
